import Mathlib

/-!
Shallow embedding of the scrapemachine repository (src/index.js, with the
variant in src/unnamed/part_000 where noted).

Modelling conventions:
* an instant (the JS `Date` built from `piece.ini` / `piece.end`) is a `Nat`
  counting minutes since the Unix epoch; the runtime timezone is taken to be
  UTC (the job runs on GitHub Actions), so `getHours`/`getMinutes` read the
  minute-of-day and `toISOString().split('T')[0]` reads the civil date of
  `t / 1440`;
* a calendar day is a `Nat` counting days since 1970-01-01; `getDay` returns
  `(day + 4) % 7` because 1970-01-01 was a Thursday (Sunday = 0, Saturday = 6);
* JS strings are Lean `String`s; the data handled here is ASCII, where JS
  UTF-16 code-unit order, Unicode code-point order and Lean's `String`
  linear order agree, so `Array.prototype.sort()` on object keys is modelled
  by `List.insertionSort (· ≤ ·)` (keys are distinct, so any sort agrees);
* a JS object used as a map is an association list in key-insertion order;
  assignment to an existing key replaces the value in place (`upsert`);
* `toLocaleTimeString`/`toLocaleDateString` are modelled in the en-US default
  locale shape the variant pins explicitly (`'en-US'`).
-/

namespace Scrapemachine

/-- Zero-pad a number to two digits, as `String.prototype.padStart(2, '0')`. -/
def pad2 (n : Nat) : String :=
  if n < 10 then "0" ++ toString n else toString n

/-- One time piece of an API column: its status mark, start instant and end
instant (minutes since the Unix epoch). -/
structure Piece where
  mark : String
  ini : Nat
  fin : Nat
deriving DecidableEq, Repr

/-- One facility column of the API payload: `column.facility.name` and
`column.pieces`. -/
structure Column where
  facilityName : String
  pieces : List Piece
deriving DecidableEq, Repr

/-- The usable part of a day's API payload: `dayData.one.date` and
`dayData.one.columns`. A payload missing `one` or `columns` is modelled as
`Option.none` at the use site. -/
structure DayData where
  date : String
  columns : List Column
deriving DecidableEq, Repr

/-- The configuration lists of src/index.js that drive filtering. -/
structure Config where
  whitelistFacilities : List String
  whitelistedStartTimes : List String
deriving DecidableEq, Repr

/-- The concrete `config` object of src/index.js (filtering fields). -/
def mainConfig : Config :=
  { whitelistFacilities := ["Pista 1", "Pista 2", "Pista Cristal", "Pista San Pablo"]
    whitelistedStartTimes := ["19:00", "19:30", "20:30", "21:00", "22:00"] }

/-- Hour-of-day of an instant (`Date.prototype.getHours`, UTC runtime). -/
def hoursOf (t : Nat) : Nat := (t % 1440) / 60

/-- Minute-of-hour of an instant (`Date.prototype.getMinutes`). -/
def minutesOf (t : Nat) : Nat := t % 60

/-- The zero-padded 24-hour `HH:MM` start-time string the filter tests
against the whitelist. -/
def startHHMM (t : Nat) : String :=
  pad2 (hoursOf t) ++ ":" ++ pad2 (minutesOf t)

/-- Hour on the 12-hour dial: 0 and 12 display as 12. -/
def hour12 (h : Nat) : Nat := if h % 12 == 0 then 12 else h % 12

/-- AM/PM marker of an hour-of-day. -/
def ampm (h : Nat) : String := if h < 12 then "AM" else "PM"

/-- `toLocaleTimeString` with 2-digit hour and minute, `hour12: true`
(en-US shape): for example `"07:30 PM"`. -/
def format12 (t : Nat) : String :=
  pad2 (hour12 (hoursOf t)) ++ ":" ++ pad2 (minutesOf t) ++ " " ++ ampm (hoursOf t)

/-- Civil date `(year, month, day)` from a day count since 1970-01-01
(Gregorian, valid for non-negative day counts). -/
def civilFromDays (z0 : Nat) : Nat × Nat × Nat :=
  let z := z0 + 719468
  let era := z / 146097
  let doe := z % 146097
  let yoe := (doe - doe / 1460 + doe / 36524 - doe / 146096) / 365
  let doy := doe - (365 * yoe + yoe / 4 - yoe / 100)
  let mp := (5 * doy + 2) / 153
  let d := doy - (153 * mp + 2) / 5 + 1
  let m := if mp < 10 then mp + 3 else mp - 9
  let y := yoe + era * 400 + (if m ≤ 2 then 1 else 0)
  (y, m, d)

/-- Zero-pad a year to four digits. -/
def pad4 (n : Nat) : String :=
  if n < 10 then "000" ++ toString n
  else if n < 100 then "00" ++ toString n
  else if n < 1000 then "0" ++ toString n
  else toString n

/-- ISO `YYYY-MM-DD` string of a day count since the epoch -
`toISOString().split('T')[0]`. -/
def isoDateOfDay (day : Nat) : String :=
  let c := civilFromDays day
  pad4 c.1 ++ "-" ++ pad2 c.2.1 ++ "-" ++ pad2 c.2.2

/-- ISO calendar date of an instant. -/
def isoDateOfInstant (t : Nat) : String := isoDateOfDay (t / 1440)

/-- A slot surviving the filter: the object pushed onto `freeSlots`. -/
structure FreeSlot where
  facility : String
  start : String
  stop : String
  date : String
deriving DecidableEq, Repr

/-- Build the `freeSlots` entry for a surviving piece: display strings from
the instants, `date` from the start instant. -/
def mkFreeSlot (facilityName : String) (p : Piece) : FreeSlot :=
  { facility := facilityName
    start := format12 p.ini
    stop := format12 p.fin
    date := isoDateOfInstant p.ini }

/-- The per-piece body of the filter loop in `parseApiResponse`
(src/index.js): keep a piece only if its mark is `FREE`, then skip it when
its `HH:MM` start is off the whitelist and dry-run is off. -/
def pieceSlot (cfg : Config) (dryRun : Bool) (facilityName : String) (p : Piece) :
    Option FreeSlot :=
  if p.mark == "FREE" then
    if !(cfg.whitelistedStartTimes.contains (startHHMM p.ini)) && !dryRun then none
    else some (mkFreeSlot facilityName p)
  else none

/-- The per-column body of the filter loop: skip the column when its
facility is off the whitelist and dry-run is off, else run the piece loop. -/
def columnSlots (cfg : Config) (dryRun : Bool) (col : Column) : List FreeSlot :=
  if !(cfg.whitelistFacilities.contains col.facilityName) && !dryRun then []
  else col.pieces.filterMap (pieceSlot cfg dryRun col.facilityName)

/-- The `freeSlots` array collected for one day payload. -/
def daySlots (cfg : Config) (dryRun : Bool) (dd : DayData) : List FreeSlot :=
  dd.columns.flatMap (columnSlots cfg dryRun)

/-- Assignment `obj[k] = v` on a JS object viewed as an association list:
replace in place when the key exists, append otherwise. -/
def upsert (k : String) (v : List FreeSlot) :
    List (String × List FreeSlot) → List (String × List FreeSlot)
  | [] => [(k, v)]
  | (k', v') :: rest => if k' == k then (k, v) :: rest else (k', v') :: upsert k v rest

/-- The loop of `parseApiResponse` that fills `availableSlots`: for each
fetched day (in key order), when the payload is usable and its `freeSlots`
are non-empty, store them under `dayData.one.date`. -/
def buildAvail (cfg : Config) (dryRun : Bool)
    (acc : List (String × List FreeSlot)) :
    List (String × Option DayData) → List (String × List FreeSlot)
  | [] => acc
  | (_, od) :: rest =>
      buildAvail cfg dryRun
        (match od with
         | none => acc
         | some dd =>
             if (daySlots cfg dryRun dd).length > 0
             then upsert dd.date (daySlots cfg dryRun dd) acc
             else acc)
        rest

/-- The finished `availableSlots` object. -/
def availableSlots (cfg : Config) (dryRun : Bool)
    (data : List (String × Option DayData)) : List (String × List FreeSlot) :=
  buildAvail cfg dryRun [] data

/-- The full ordered sequence of surviving pieces, in processing order;
`totalSlotCount` increments once per element of this list. -/
def freeSlotsOfData (cfg : Config) (dryRun : Bool)
    (data : List (String × Option DayData)) : List FreeSlot :=
  data.flatMap (fun e => match e.2 with
    | none => []
    | some dd => daySlots cfg dryRun dd)

/-- The `totalSlotCount` counter of `parseApiResponse`. -/
def totalSlotCount (cfg : Config) (dryRun : Bool)
    (data : List (String × Option DayData)) : Nat :=
  (freeSlotsOfData cfg dryRun data).length

/-- English month name, 1-indexed, used by `toLocaleDateString`. -/
def monthName : Nat → String
  | 1 => "January" | 2 => "February" | 3 => "March" | 4 => "April"
  | 5 => "May" | 6 => "June" | 7 => "July" | 8 => "August"
  | 9 => "September" | 10 => "October" | 11 => "November" | 12 => "December"
  | _ => "?"

/-- English weekday name with the `getDay` numbering (Sunday = 0). -/
def weekdayName : Nat → String
  | 0 => "Sunday" | 1 => "Monday" | 2 => "Tuesday" | 3 => "Wednesday"
  | 4 => "Thursday" | 5 => "Friday" | 6 => "Saturday"
  | _ => "?"

/-- Day count since 1970-01-01 of a civil date (Gregorian, for dates at or
after the epoch). -/
def daysFromCivil (y m d : Nat) : Nat :=
  let yA := if m ≤ 2 then y - 1 else y
  let era := yA / 400
  let yoe := yA % 400
  let mp := if m > 2 then m - 3 else m + 9
  let doy := (153 * mp + 2) / 5 + d - 1
  let doe := yoe * 365 + yoe / 4 - yoe / 100 + doy
  era * 146097 + doe - 719468

/-- Split a character list on `-` separators. -/
def splitDashAux (cur : List Char) : List Char → List (List Char)
  | [] => [cur.reverse]
  | c :: cs => if c == '-' then cur.reverse :: splitDashAux [] cs else splitDashAux (c :: cur) cs

/-- Decimal value of a non-empty all-digit character list. -/
def natOfDigits (l : List Char) : Option Nat :=
  if l.isEmpty then none
  else if l.all (fun c => c.isDigit)
  then some (l.foldl (fun acc c => acc * 10 + (c.toNat - 48)) 0)
  else none

/-- Parse a `YYYY-MM-DD` string into its numeric fields. -/
def parseIsoDate (s : String) : Option (Nat × Nat × Nat) :=
  match splitDashAux [] s.toList with
  | [ys, ms, ds] =>
      match natOfDigits ys, natOfDigits ms, natOfDigits ds with
      | some y, some m, some d => some (y, m, d)
      | _, _, _ => none
  | _ => none

/-- `new Date(rawDate).toLocaleDateString` with long weekday/month, numeric
day and year (en-US shape): for example `"Wednesday, January 1, 2025"`. -/
def displayDate (s : String) : String :=
  match parseIsoDate s with
  | some (y, m, d) =>
      weekdayName ((daysFromCivil y m d + 4) % 7) ++ ", " ++ monthName m
        ++ " " ++ toString d ++ ", " ++ toString y
  | none => "Invalid Date"

/-- Lexicographic less-or-equal on character lists by code point; on the
ASCII data handled here this is exactly the UTF-16 code-unit comparison of
the JS default `Array.prototype.sort()`. -/
def charsLe : List Char → List Char → Bool
  | [], _ => true
  | _ :: _, [] => false
  | a :: as, b :: bs =>
      if a.toNat < b.toNat then true
      else if b.toNat < a.toNat then false
      else charsLe as bs

/-- JS default string comparison, less-or-equal. -/
def jsLeB (a b : String) : Bool := charsLe a.toList b.toList

/-- Insert a string into a sorted list, keeping JS sort order. -/
def insertSortedStr (x : String) : List String → List String
  | [] => [x]
  | y :: ys => if jsLeB x y then x :: y :: ys else y :: insertSortedStr x ys

/-- `Array.prototype.sort()` with no comparator on a list of (distinct)
keys: sort by code-unit order. -/
def sortStrings : List String → List String
  | [] => []
  | x :: xs => insertSortedStr x (sortStrings xs)

/-- First-occurrence deduplication: the key set of a JS object in insertion
order, given the insertion sequence. -/
def firstDedupAux (seen : List String) : List String → List String
  | [] => []
  | x :: xs =>
      if seen.contains x then firstDedupAux seen xs
      else x :: firstDedupAux (x :: seen) xs

/-- Keys of the `timeSlots` object in insertion order. -/
def firstDedup (l : List String) : List String := firstDedupAux [] l

/-- The facility list pushed under `timeSlots[slot.start]` for one start
display string, in push order. -/
def facsAt (slots : List FreeSlot) (time : String) : List String :=
  (slots.filter (fun s => s.start == time)).map (fun s => s.facility)

/-- `Object.keys(timeSlots).sort()`: the distinct start display strings,
sorted in JS default (lexicographic) string order. -/
def sortedTimes (slots : List FreeSlot) : List String :=
  sortStrings (firstDedup (slots.map (fun s => s.start)))

/-- One table cell: the start-time label when the facility is present at
this time, else empty. -/
def cellHtml (time : String) (facs : List String) (f : String) : String :=
  if facs.contains f then "<td>" ++ time ++ "</td>" else "<td></td>"

/-- One table row for a start time: one cell per configured facility, in
configured list order. -/
def rowHtml (cfg : Config) (time : String) (facs : List String) : String :=
  "<tr>" ++ String.join (cfg.whitelistFacilities.map (cellHtml time facs)) ++ "</tr>"

/-- The header row of facility names. -/
def headerHtml (cfg : Config) : String :=
  "<tr>" ++ String.join (cfg.whitelistFacilities.map (fun f => "<th>" ++ f ++ "</th>")) ++ "</tr>"

/-- The opening tag of every table emitted by the script. -/
def tableOpen : String :=
  "<table border=\"1\" cellpadding=\"5\" style=\"border-collapse: collapse; width: 100%;\">"

/-- The table of one date section: header row, then one row per sorted
distinct start display string. -/
def tableHtml (cfg : Config) (slots : List FreeSlot) : String :=
  tableOpen ++ headerHtml cfg
    ++ String.join ((sortedTimes slots).map (fun t => rowHtml cfg t (facsAt slots t)))
    ++ "</table><br>"

/-- Value lookup `availableSlots[rawDate]` (keys are distinct, default
unused). -/
def lookupSlots (k : String) : List (String × List FreeSlot) → List FreeSlot
  | [] => []
  | (k', v) :: rest => if k' == k then v else lookupSlots k rest

/-- The literal emitted when `availableSlots` has no keys. -/
def noSlotsNotice : String := "<p><strong>No available slots found</strong></p>"

/-- One date section: `<h3>` header with the locale-formatted date, then the
table. -/
def sectionHtml (cfg : Config) (avail : List (String × List FreeSlot))
    (rawDate : String) : String :=
  "<h3>" ++ displayDate rawDate ++ "</h3>" ++ tableHtml cfg (lookupSlots rawDate avail)

/-- The `htmlContent` built by `parseApiResponse`: the notice when no day
has slots, else one section per stored date in sorted key order. -/
def htmlContent (cfg : Config) (avail : List (String × List FreeSlot)) : String :=
  if avail.length == 0 then noSlotsNotice
  else
    String.join ((sortStrings (avail.map (fun e => e.1))).map (sectionHtml cfg avail))

/-- The pair `{ htmlContent, slotCount }` returned by `parseApiResponse`. -/
def parseApiResponse (cfg : Config) (dryRun : Bool)
    (data : List (String × Option DayData)) : String × Nat :=
  (htmlContent cfg (availableSlots cfg dryRun data), totalSlotCount cfg dryRun data)

/-- Weekend test of `scrapeWebsite`: `getDay` is 0 (Sunday) or 6 (Saturday);
1970-01-01 was a Thursday, so `getDay` of epoch day `d` is `(d + 4) % 7`. -/
def isWeekend (day : Nat) : Bool :=
  (day + 4) % 7 == 0 || (day + 4) % 7 == 6

/-- The date loop of `scrapeWebsite`: for `i` in `[0, horizon)` take
`today + i`, omitting weekend days entirely when the skip flag is set.
src/index.js runs it with `horizon = 8` and the skip on; the variant in
src/unnamed/part_000 runs the same loop with the skip off. -/
def queryWindow (today horizon : Nat) (skipWeekends : Bool) : List Nat :=
  (List.range horizon).filterMap (fun i =>
    if skipWeekends && isWeekend (today + i) then none else some (today + i))

/-- The outcome of one per-date request: the `.then` branch stores the
payload under the date key, the `.catch` branch stores nothing. -/
inductive FetchResult where
  | failure
  | success (payload : Option DayData)
deriving DecidableEq, Repr

/-- The `results` object after `Promise.all`: only successful dates are
present. -/
def resultsOf (outcomes : List (String × FetchResult)) :
    List (String × Option DayData) :=
  outcomes.filterMap (fun e => match e.2 with
    | .failure => none
    | .success od => some (e.1, od))

/-- The `mailOptions` object built by `sendEmail`. -/
structure EmailMessage where
  fromAddr : String
  toAddr : String
  subject : String
  htmlBody : String
deriving DecidableEq, Repr

/-- The body template of `sendEmail` (src/index.js). -/
def emailBody (content tournamentData : String) : String :=
  "\n      <h3>Available Slots:</h3>\n      <pre style=\"background-color: #f4f4f4; padding: 10px; overflow: auto;\">"
    ++ content
    ++ "</pre>\n      <h3>Leaderboard:</h3>\n      <pre style=\"background-color: #f2f2f2; padding: 10px; overflow: auto;\">"
    ++ tournamentData
    ++ "</pre>\n    "

/-- `mailOptions` as `sendEmail` constructs it; `envUser` stands for the
`EMAIL_USER` environment value used as recipient. -/
def buildMail (envUser content : String) (slotCount : Nat)
    (tournamentData : String) : EmailMessage :=
  { fromAddr := "doesntmatter@gmail.com"
    toAddr := envUser
    subject := toString slotCount ++ " free slots available"
    htmlBody := emailBody content tournamentData }

/-- An observable dispatch action of `sendEmail`: a real send attempt, or
the dry-run write of the body to `tmp.html`. -/
inductive Dispatch where
  | send (msg : EmailMessage)
  | previewWrite (path : String) (content : String)
deriving DecidableEq, Repr

/-- The dispatch performed by `sendEmail`: exactly one action either way. -/
def sendEmailActions (dryRun : Bool) (msg : EmailMessage) : List Dispatch :=
  if dryRun then [.previewWrite "tmp.html" msg.htmlBody] else [.send msg]

/-- What one run of `scrapeWebsite` produces after the fetch barrier. -/
structure RunResult where
  html : String
  slotCount : Nat
  message : EmailMessage
  dispatches : List Dispatch
deriving Repr

/-- The post-fetch pipeline of `scrapeWebsite`: parse the settled results,
build the mail, dispatch once. `tournamentHtml` is the fragment (or
fallback string) `scrapeTournamentData` returned. -/
def runScrape (cfg : Config) (dryRun : Bool) (envUser : String)
    (outcomes : List (String × FetchResult)) (tournamentHtml : String) :
    RunResult :=
  { html := (parseApiResponse cfg dryRun (resultsOf outcomes)).1
    slotCount := (parseApiResponse cfg dryRun (resultsOf outcomes)).2
    message := buildMail envUser (parseApiResponse cfg dryRun (resultsOf outcomes)).1
      (parseApiResponse cfg dryRun (resultsOf outcomes)).2 tournamentHtml
    dispatches := sendEmailActions dryRun
      (buildMail envUser (parseApiResponse cfg dryRun (resultsOf outcomes)).1
        (parseApiResponse cfg dryRun (resultsOf outcomes)).2 tournamentHtml) }

/-- Configuration lists of the variant in src/unnamed/part_000: the facility
list is named `blacklistFacilities` but its own comment reads "Only include
these facilities". -/
structure ConfigB where
  blacklistFacilities : List String
  whitelistedStartTimes : List String
deriving DecidableEq, Repr

/-- The concrete `config` object of src/unnamed/part_000 (filtering
fields). -/
def variantConfig : ConfigB :=
  { blacklistFacilities := ["Pista 1", "Pista 2", "Pista Cristal"]
    whitelistedStartTimes := ["19:30", "21:00"] }

/-- Per-piece filter of the variant: no dry-run bypass exists there. -/
def pieceSlotB (cfg : ConfigB) (facilityName : String) (p : Piece) :
    Option FreeSlot :=
  if p.mark == "FREE" then
    if !(cfg.whitelistedStartTimes.contains (startHHMM p.ini)) then none
    else some (mkFreeSlot facilityName p)
  else none

/-- Per-column filter of the variant (src/unnamed/part_000): the column is
skipped exactly when its facility name is NOT in `blacklistFacilities`, so
the deny-named list admits precisely its members. -/
def columnSlotsB (cfg : ConfigB) (col : Column) : List FreeSlot :=
  if !(cfg.blacklistFacilities.contains col.facilityName) then []
  else col.pieces.filterMap (pieceSlotB cfg col.facilityName)

/-- Substring search on character lists (prefix at each suffix). -/
def leadMatch : List Char → List Char → Bool
  | [], _ => true
  | _ :: _, [] => false
  | p :: ps, c :: cs => p == c && leadMatch ps cs

/-- Does `pat` occur inside the list anywhere. -/
def subMatch (pat : List Char) : List Char → Bool
  | [] => leadMatch pat []
  | c :: cs => leadMatch pat (c :: cs) || subMatch pat cs

/-- `String.prototype.includes`-style substring test. -/
def strHasSub (hay pat : String) : Bool := subMatch pat.toList hay.toList

/-- Number of non-empty cells in one rendered row: configured facilities
present in the cell's facility list. -/
def rowOccupied (cfg : Config) (facs : List String) : Nat :=
  (cfg.whitelistFacilities.filter (fun f => facs.contains f)).length

/-- Number of non-empty cells in one date section's table. -/
def tableOccupied (cfg : Config) (slots : List FreeSlot) : Nat :=
  ((sortedTimes slots).map (fun t => rowOccupied cfg (facsAt slots t))).sum

/-- Number of non-empty cells across all rendered tables. -/
def matrixOccupied (cfg : Config) (avail : List (String × List FreeSlot)) : Nat :=
  (avail.map (fun e => tableOccupied cfg e.2)).sum

/-- Concrete piece for exercising the filter: FREE, starting 2025-01-02
19:00 UTC. -/
def w1Piece : Piece :=
  { mark := "FREE", ini := 20090 * 1440 + 19 * 60, fin := 20090 * 1440 + 20 * 60 }

/-- Concrete whitelisted column holding `w1Piece`. -/
def w1Col : Column := { facilityName := "Pista 1", pieces := [w1Piece] }

/-- Concrete one-day fetch result holding `w1Col`. -/
def w1Data : List (String × Option DayData) :=
  [("2025-01-02", some { date := "2025-01-02", columns := [w1Col] })]

/-- Config admitting facility `F` at start time `00:10`. -/
def x2Cfg : Config := { whitelistFacilities := ["F"], whitelistedStartTimes := ["00:10"] }

/-- A FREE piece whose start instant is 2025-01-03 00:10 UTC - the calendar
day after the payload date below. -/
def x2Piece : Piece :=
  { mark := "FREE", ini := 20091 * 1440 + 10, fin := 20091 * 1440 + 70 }

/-- Day payload dated 2025-01-02 whose only piece starts on 2025-01-03. -/
def x2Day : DayData :=
  { date := "2025-01-02", columns := [{ facilityName := "F", pieces := [x2Piece] }] }

/-- Fetch results holding `x2Day` under its query date. -/
def x2Data : List (String × Option DayData) := [("2025-01-02", some x2Day)]

/-- Config admitting facility `F` at start times `11:00` and `13:00`. -/
def x3Cfg : Config :=
  { whitelistFacilities := ["F"], whitelistedStartTimes := ["11:00", "13:00"] }

/-- FREE piece starting 2025-01-02 11:00 UTC (display `11:00 AM`). -/
def x3Early : Piece :=
  { mark := "FREE", ini := 20090 * 1440 + 11 * 60, fin := 20090 * 1440 + 12 * 60 }

/-- FREE piece starting 2025-01-02 13:00 UTC (display `01:00 PM`). -/
def x3Late : Piece :=
  { mark := "FREE", ini := 20090 * 1440 + 13 * 60, fin := 20090 * 1440 + 14 * 60 }

/-- Day payload holding both `x3Early` and `x3Late`. -/
def x3Day : DayData :=
  { date := "2025-01-02", columns := [{ facilityName := "F", pieces := [x3Early, x3Late] }] }

/-- Config admitting facility `F` at start time `19:00`. -/
def c4Cfg : Config := { whitelistFacilities := ["F"], whitelistedStartTimes := ["19:00"] }

/-- FREE piece starting 2025-01-02 19:00 UTC. -/
def c4Piece : Piece :=
  { mark := "FREE", ini := 20090 * 1440 + 19 * 60, fin := 20090 * 1440 + 20 * 60 }

/-- Fetch results whose one column holds the same piece twice - two
FreeSlots with an identical (date, start, facility) triple. -/
def c4DataDup : List (String × Option DayData) :=
  [("2025-01-02", some { date := "2025-01-02"
                         columns := [{ facilityName := "F", pieces := [c4Piece, c4Piece] }] })]

/-- The same fetch results with the piece held once. -/
def c4DataOne : List (String × Option DayData) :=
  [("2025-01-02", some { date := "2025-01-02"
                         columns := [{ facilityName := "F", pieces := [c4Piece] }] })]

/-- Two queried dates whose requests both failed. -/
def w5Outcomes : List (String × FetchResult) :=
  [("2025-01-02", .failure), ("2025-01-03", .failure)]

/-- FREE piece starting 2025-01-02 19:30 UTC, a start time both configs
admit. -/
def x6Piece : Piece :=
  { mark := "FREE", ini := 20090 * 1440 + 19 * 60 + 30, fin := 20090 * 1440 + 21 * 60 }

/-- Column whose facility name IS on the variant's deny-named list. -/
def x6ColIn : Column := { facilityName := "Pista 1", pieces := [x6Piece] }

/-- Column whose facility name is NOT on the variant's deny-named list. -/
def x6ColOut : Column := { facilityName := "Pista Zeta", pieces := [x6Piece] }

/-- Fetch results where the only queried date failed. -/
def w7Data : List (String × Option DayData) := [("2025-01-02", none)]

/-- Config admitting facility `F` at start time `19:00`. -/
def c9Cfg : Config := { whitelistFacilities := ["F"], whitelistedStartTimes := ["19:00"] }

/-- FREE piece starting 2025-01-02 19:00 UTC. -/
def c9Piece : Piece :=
  { mark := "FREE", ini := 20090 * 1440 + 19 * 60, fin := 20090 * 1440 + 20 * 60 }

/-- Fetch results holding the same surviving piece twice: two slots counted,
one occupied cell rendered. -/
def c9Data : List (String × Option DayData) :=
  [("2025-01-02", some { date := "2025-01-02"
                         columns := [{ facilityName := "F", pieces := [c9Piece, c9Piece] }] })]

/-! Helper lemmas about the string comparator and the key sort. -/

theorem charsLe_total : ∀ a b : List Char, charsLe a b = true ∨ charsLe b a = true
  | [], _ => Or.inl rfl
  | _ :: _, [] => Or.inr rfl
  | a :: as, b :: bs => by
      rcases Nat.lt_trichotomy a.toNat b.toNat with h | h | h
      · left; simp [charsLe, h]
      · rcases charsLe_total as bs with ih | ih
        · left; simp [charsLe, h, Nat.lt_irrefl, ih]
        · right; simp [charsLe, h.symm, Nat.lt_irrefl, ih]
      · right; simp [charsLe, h]

theorem charsLe_trans :
    ∀ a b c : List Char, charsLe a b = true → charsLe b c = true → charsLe a c = true
  | [], _, _, _, _ => rfl
  | _ :: _, [], _, h, _ => by simp [charsLe] at h
  | _ :: _, _ :: _, [], _, h => by simp [charsLe] at h
  | a :: as, b :: bs, c :: cs, h1, h2 => by
      simp only [charsLe] at h1 h2 ⊢
      by_cases hab : a.toNat < b.toNat
      · by_cases hbc : b.toNat < c.toNat
        · simp [Nat.lt_trans hab hbc]
        · by_cases hcb : c.toNat < b.toNat
          · simp [hbc, hcb] at h2
          · have hbc' : b.toNat = c.toNat := Nat.le_antisymm (Nat.le_of_not_lt hcb) (Nat.le_of_not_lt hbc)
            simp [hbc' ▸ hab]
      · by_cases hba : b.toNat < a.toNat
        · simp [hab, hba] at h1
        · have hab' : a.toNat = b.toNat := Nat.le_antisymm (Nat.le_of_not_lt hba) (Nat.le_of_not_lt hab)
          simp only [hab, hba, if_neg, ite_false, Nat.lt_irrefl] at h1
          by_cases hbc : b.toNat < c.toNat
          · simp [hab' ▸ hbc]
          · by_cases hcb : c.toNat < b.toNat
            · simp [hbc, hcb] at h2
            · have hbc' : b.toNat = c.toNat := Nat.le_antisymm (Nat.le_of_not_lt hcb) (Nat.le_of_not_lt hbc)
              simp only [hbc, hcb, ite_false, Nat.lt_irrefl] at h2
              have : ¬ a.toNat < c.toNat := by omega
              have : ¬ c.toNat < a.toNat := by omega
              simp_all [charsLe_trans as bs cs]

theorem jsLeB_total (a b : String) : jsLeB a b = true ∨ jsLeB b a = true :=
  charsLe_total a.toList b.toList

theorem jsLeB_trans {a b c : String} (h1 : jsLeB a b = true) (h2 : jsLeB b c = true) :
    jsLeB a c = true :=
  charsLe_trans a.toList b.toList c.toList h1 h2

theorem mem_insertSortedStr {y x : String} :
    ∀ {l : List String}, y ∈ insertSortedStr x l ↔ y = x ∨ y ∈ l
  | [] => by simp [insertSortedStr]
  | z :: zs => by
      simp only [insertSortedStr]
      split
      · simp [or_comm, or_assoc, eq_comm]
      · simp only [List.mem_cons, mem_insertSortedStr (l := zs)]
        tauto

theorem perm_insertSortedStr (x : String) :
    ∀ l : List String, List.Perm (insertSortedStr x l) (x :: l)
  | [] => List.Perm.refl _
  | z :: zs => by
      simp only [insertSortedStr]
      split
      · exact List.Perm.refl _
      · exact ((perm_insertSortedStr x zs).cons z).trans (List.Perm.swap x z zs)

theorem perm_sortStrings : ∀ l : List String, List.Perm (sortStrings l) l
  | [] => List.Perm.refl _
  | x :: xs =>
      (perm_insertSortedStr x (sortStrings xs)).trans ((perm_sortStrings xs).cons x)

theorem mem_sortStrings {y : String} {l : List String} : y ∈ sortStrings l ↔ y ∈ l :=
  (perm_sortStrings l).mem_iff

theorem pairwise_insertSortedStr {x : String} :
    ∀ {l : List String}, l.Pairwise (fun a b => jsLeB a b = true) →
      (insertSortedStr x l).Pairwise (fun a b => jsLeB a b = true)
  | [], _ => by simp [insertSortedStr]
  | z :: zs, h => by
      simp only [insertSortedStr]
      split
      · rename_i hxz
        refine List.Pairwise.cons ?_ h
        intro b hb
        rcases List.mem_cons.mp hb with rfl | hb
        · exact hxz
        · exact jsLeB_trans hxz (List.rel_of_pairwise_cons h hb)
      · rename_i hxz
        have hzx : jsLeB z x = true := by
          rcases jsLeB_total x z with h' | h'
          · exact absurd h' hxz
          · exact h'
        refine List.Pairwise.cons ?_ (pairwise_insertSortedStr h.of_cons)
        intro b hb
        rcases mem_insertSortedStr.mp hb with rfl | hb
        · exact hzx
        · exact List.rel_of_pairwise_cons h hb

theorem sorted_sortStrings :
    ∀ l : List String, (sortStrings l).Pairwise (fun a b => jsLeB a b = true)
  | [] => List.Pairwise.nil
  | x :: xs => pairwise_insertSortedStr (sorted_sortStrings xs)

theorem nodup_sortStrings {l : List String} (h : l.Nodup) : (sortStrings l).Nodup :=
  (perm_sortStrings l).nodup_iff.mpr h

theorem mem_firstDedupAux {x : String} :
    ∀ {l seen : List String}, x ∈ firstDedupAux seen l ↔ x ∈ l ∧ x ∉ seen
  | [], seen => by simp [firstDedupAux]
  | y :: ys, seen => by
      simp only [firstDedupAux]
      split
      · rename_i hy
        rw [mem_firstDedupAux (l := ys)]
        have hy' : y ∈ seen := by simpa using hy
        simp only [List.mem_cons]
        constructor
        · rintro ⟨h1, h2⟩; exact ⟨Or.inr h1, h2⟩
        · rintro ⟨h1 | h1, h2⟩
          · exact absurd (h1 ▸ hy') h2
          · exact ⟨h1, h2⟩
      · rename_i hy
        have hy' : y ∉ seen := by simpa using hy
        simp only [List.mem_cons, mem_firstDedupAux (l := ys)]
        constructor
        · rintro (rfl | ⟨h1, h2⟩)
          · exact ⟨Or.inl rfl, hy'⟩
          · exact ⟨Or.inr h1, fun hx => h2 (Or.inr hx)⟩
        · rintro ⟨rfl | h1, h2⟩
          · exact Or.inl rfl
          · by_cases hxy : x = y
            · exact Or.inl hxy
            · exact Or.inr ⟨h1, fun hx => hx.elim hxy h2⟩

theorem nodup_firstDedupAux : ∀ (l seen : List String), (firstDedupAux seen l).Nodup
  | [], _ => List.Pairwise.nil
  | y :: ys, seen => by
      simp only [firstDedupAux]
      split
      · exact nodup_firstDedupAux ys seen
      · refine List.Pairwise.cons ?_ (nodup_firstDedupAux ys (y :: seen))
        intro b hb hby
        exact (mem_firstDedupAux.mp hb).2 (hby ▸ List.mem_cons_self y seen)

theorem mem_firstDedup {x : String} {l : List String} : x ∈ firstDedup l ↔ x ∈ l := by
  simp [firstDedup, mem_firstDedupAux]

theorem nodup_firstDedup (l : List String) : (firstDedup l).Nodup :=
  nodup_firstDedupAux l []

/-! Helper lemmas about the filter pipeline. -/

theorem filterMap_guard {α β : Type} (q : α → Bool) (f : α → β) :
    ∀ l : List α,
      l.filterMap (fun a => if q a then some (f a) else none) = (l.filter q).map f
  | [] => rfl
  | a :: l => by
      by_cases h : q a <;>
        simp [List.filterMap_cons, List.filter_cons, h, filterMap_guard q f l]

theorem pieceSlot_dryRun_true (cfg : Config) (name : String) (p : Piece) :
    pieceSlot cfg true name p = if p.mark == "FREE" then some (mkFreeSlot name p) else none := by
  simp [pieceSlot]

theorem pieceSlot_eq_some {cfg : Config} {dr : Bool} {name : String} {p : Piece}
    {s : FreeSlot} (h : pieceSlot cfg dr name p = some s) :
    s = mkFreeSlot name p ∧ p.mark = "FREE" := by
  unfold pieceSlot at h
  split at h
  · split at h
    · exact absurd h (by simp)
    · rename_i hm _
      exact ⟨(Option.some.inj h).symm, by simpa using hm⟩
  · exact absurd h (by simp)

theorem mem_columnSlots {cfg : Config} {dr : Bool} {col : Column} {s : FreeSlot}
    (h : s ∈ columnSlots cfg dr col) :
    ∃ p ∈ col.pieces, s = mkFreeSlot col.facilityName p ∧ p.mark = "FREE" := by
  unfold columnSlots at h
  split at h
  · exact absurd h (List.not_mem_nil s)
  · obtain ⟨p, hp, hps⟩ := List.mem_filterMap.mp h
    obtain ⟨hs, hm⟩ := pieceSlot_eq_some hps
    exact ⟨p, hp, hs, hm⟩

theorem mem_columnSlots_noDryRun {cfg : Config} {col : Column} {s : FreeSlot}
    (h : s ∈ columnSlots cfg false col) :
    cfg.whitelistFacilities.contains col.facilityName = true
      ∧ ∃ p ∈ col.pieces, p.mark = "FREE"
          ∧ cfg.whitelistedStartTimes.contains (startHHMM p.ini) = true
          ∧ s = mkFreeSlot col.facilityName p := by
  unfold columnSlots at h
  split at h
  · exact absurd h (List.not_mem_nil s)
  · rename_i hcond
    have hfac : cfg.whitelistFacilities.contains col.facilityName = true := by
      cases hf : cfg.whitelistFacilities.contains col.facilityName with
      | false => exact absurd (by rw [hf]; rfl) hcond
      | true => rfl
    obtain ⟨p, hp, hps⟩ := List.mem_filterMap.mp h
    unfold pieceSlot at hps
    split at hps
    · rename_i hm
      split at hps
      · exact absurd hps (by simp)
      · rename_i htime
        have ht : cfg.whitelistedStartTimes.contains (startHHMM p.ini) = true := by
          cases hf : cfg.whitelistedStartTimes.contains (startHHMM p.ini) with
          | false => exact absurd (by rw [hf]; rfl) htime
          | true => rfl
        exact ⟨hfac, p, hp, by simpa using hm, ht, (Option.some.inj hps).symm⟩
    · exact absurd hps (by simp)

theorem mem_daySlots {cfg : Config} {dr : Bool} {dd : DayData} {s : FreeSlot}
    (h : s ∈ daySlots cfg dr dd) :
    ∃ col ∈ dd.columns, s ∈ columnSlots cfg dr col := by
  simpa [daySlots] using List.mem_flatMap.mp h

theorem mem_freeSlotsOfData {cfg : Config} {dr : Bool}
    {data : List (String × Option DayData)} {s : FreeSlot}
    (h : s ∈ freeSlotsOfData cfg dr data) :
    ∃ e ∈ data, ∃ dd, e.2 = some dd ∧ s ∈ daySlots cfg dr dd := by
  obtain ⟨e, he, hs⟩ := List.mem_flatMap.mp h
  cases hod : e.2 with
  | none => rw [hod] at hs; exact absurd hs (List.not_mem_nil s)
  | some dd => rw [hod] at hs; exact ⟨e, he, dd, hod, hs⟩

theorem mem_upsert {k k' : String} {v v' : List FreeSlot} :
    ∀ {l : List (String × List FreeSlot)},
      (k, v) ∈ upsert k' v' l → (k = k' ∧ v = v') ∨ (k, v) ∈ l
  | [], h => by
      simp only [upsert, List.mem_singleton] at h
      exact Or.inl ⟨congrArg Prod.fst h, congrArg Prod.snd h⟩
  | (k2, v2) :: rest, h => by
      simp only [upsert] at h
      split at h
      · rcases List.mem_cons.mp h with h' | h'
        · exact Or.inl ⟨congrArg Prod.fst h', congrArg Prod.snd h'⟩
        · exact Or.inr (List.mem_cons_of_mem _ h')
      · rcases List.mem_cons.mp h with h' | h'
        · exact Or.inr (h' ▸ List.mem_cons_self _ _)
        · rcases mem_upsert h' with h'' | h''
          · exact Or.inl h''
          · exact Or.inr (List.mem_cons_of_mem _ h'')

theorem mem_buildAvail {cfg : Config} {dr : Bool} {k : String} {sl : List FreeSlot} :
    ∀ (data : List (String × Option DayData)) (acc : List (String × List FreeSlot)),
      (k, sl) ∈ buildAvail cfg dr acc data →
      (k, sl) ∈ acc
        ∨ ∃ e ∈ data, ∃ dd, e.2 = some dd ∧ k = dd.date ∧ sl = daySlots cfg dr dd := by
  intro data
  induction data with
  | nil => exact fun acc h => Or.inl h
  | cons e rest ih =>
      intro acc h
      obtain ⟨q, od⟩ := e
      cases od with
      | none =>
          simp only [buildAvail] at h
          rcases ih _ h with h' | ⟨e', he', dd, hdd, hk, hsl⟩
          · exact Or.inl h'
          · exact Or.inr ⟨e', List.mem_cons_of_mem _ he', dd, hdd, hk, hsl⟩
      | some dd =>
          simp only [buildAvail] at h
          by_cases hlen : (daySlots cfg dr dd).length > 0
          · rw [if_pos hlen] at h
            rcases ih _ h with h' | ⟨e', he', dd', hdd', hk, hsl⟩
            · rcases mem_upsert h' with ⟨hk, hsl⟩ | hacc
              · exact Or.inr ⟨(q, some dd), List.mem_cons_self _ _, dd, rfl, hk, hsl⟩
              · exact Or.inl hacc
            · exact Or.inr ⟨e', List.mem_cons_of_mem _ he', dd', hdd', hk, hsl⟩
          · rw [if_neg hlen] at h
            rcases ih _ h with h' | ⟨e', he', dd', hdd', hk, hsl⟩
            · exact Or.inl h'
            · exact Or.inr ⟨e', List.mem_cons_of_mem _ he', dd', hdd', hk, hsl⟩

theorem mem_availableSlots {cfg : Config} {dr : Bool} {k : String} {sl : List FreeSlot}
    {data : List (String × Option DayData)} (h : (k, sl) ∈ availableSlots cfg dr data) :
    ∃ e ∈ data, ∃ dd, e.2 = some dd ∧ k = dd.date ∧ sl = daySlots cfg dr dd := by
  rcases mem_buildAvail data [] h with h' | h'
  · exact absurd h' (List.not_mem_nil _)
  · exact h'

/-! Helper lemmas about substring search, the fetch barrier and the query
window. -/

theorem leadMatch_append (pat rest : List Char) : leadMatch pat (pat ++ rest) = true := by
  induction pat with
  | nil => rfl
  | cons p ps ih => simp [leadMatch, ih]

theorem subMatch_append_left (x : List Char) {pat l : List Char}
    (h : subMatch pat l = true) : subMatch pat (x ++ l) = true := by
  induction x with
  | nil => exact h
  | cons c cs ih => simp [subMatch, ih]

theorem subMatch_self (pat rest : List Char) : subMatch pat (pat ++ rest) = true := by
  cases pat with
  | nil => cases rest with
    | nil => rfl
    | cons c cs => simp [subMatch, leadMatch]
  | cons p ps =>
      have h := leadMatch_append (p :: ps) rest
      simp only [List.cons_append] at h
      simp [subMatch, h]

theorem strHasSub_middle (a pat b : String) : strHasSub (a ++ (pat ++ b)) pat = true := by
  unfold strHasSub
  have hsplit : (a ++ (pat ++ b)).toList = a.toList ++ (pat.toList ++ b.toList) := by
    simp [String.toList, String.data_append]
  rw [hsplit]
  exact subMatch_append_left _ (subMatch_self _ _)

theorem strHasSub_emailBody (content t : String) :
    strHasSub (emailBody content t) content = true := by
  unfold emailBody
  simp only [String.append_assoc]
  exact strHasSub_middle _ _ _

theorem resultsOf_all_failure {outcomes : List (String × FetchResult)}
    (h : ∀ e ∈ outcomes, e.2 = FetchResult.failure) : resultsOf outcomes = [] := by
  unfold resultsOf
  rw [List.filterMap_eq_nil_iff]
  intro e he
  rw [h e he]

theorem filterMap_skip (f : Nat → Nat) (q : Nat → Bool) :
    ∀ l : List Nat,
      (l.filterMap fun i => if q (f i) then none else some (f i))
        = (l.map f).filter (fun d => !q d)
  | [] => rfl
  | i :: l => by
      cases h : q (f i) <;>
        simp [List.filterMap_cons, List.filter_cons, h, filterMap_skip f q l]

theorem queryWindow_eq_filter (today horizon : Nat) (skipWeekends : Bool) :
    queryWindow today horizon skipWeekends
      = ((List.range horizon).map (fun i => today + i)).filter
          (fun d => !(skipWeekends && isWeekend d)) :=
  filterMap_skip (fun i => today + i) (fun d => skipWeekends && isWeekend d)
    (List.range horizon)

theorem contains_dedup (l : List String) (f : String) :
    l.contains f = l.dedup.contains f := by
  by_cases h : f ∈ l <;> simp [h, List.mem_dedup]

/-! Claim theorems. -/

/-- C1: without dry-run, every piece in the filter's output has status mark
`FREE`, a whitelisted facility name and a whitelisted zero-padded 24-hour
`HH:MM` start time; with dry-run set, the facility and start-time tests are
bypassed and a piece passes on the mark test alone. -/
theorem c1_filter_output_only_free_listed :
    (∀ (cfg : Config) (data : List (String × Option DayData)) (s : FreeSlot),
        s ∈ freeSlotsOfData cfg false data →
        ∃ e ∈ data, ∃ dd, e.2 = some dd ∧ ∃ col ∈ dd.columns, ∃ p ∈ col.pieces,
          p.mark = "FREE"
            ∧ cfg.whitelistFacilities.contains col.facilityName = true
            ∧ cfg.whitelistedStartTimes.contains (startHHMM p.ini) = true
            ∧ s = mkFreeSlot col.facilityName p)
    ∧ (∀ (cfg : Config) (col : Column) (p : Piece),
        p ∈ col.pieces → p.mark = "FREE" →
        mkFreeSlot col.facilityName p ∈ columnSlots cfg true col) := by
  constructor
  · intro cfg data s hs
    obtain ⟨e, he, dd, hdd, hday⟩ := mem_freeSlotsOfData hs
    obtain ⟨col, hcol, hmem⟩ := mem_daySlots hday
    obtain ⟨hfac, p, hp, hm, ht, hmk⟩ := mem_columnSlots_noDryRun hmem
    exact ⟨e, he, dd, hdd, col, hcol, p, hp, hm, hfac, ht, hmk⟩
  · intro cfg col p hp hm
    unfold columnSlots
    rw [if_neg (by simp)]
    exact List.mem_filterMap.mpr ⟨p, hp, by simp [pieceSlot_dryRun_true, hm]⟩

/-- C1 witness: a concrete FREE piece of a whitelisted facility at 19:00
survives the normal filter, and survives the dry-run column filter on the
mark test alone. -/
theorem c1_witness :
    (mkFreeSlot "Pista 1" w1Piece ∈ freeSlotsOfData mainConfig false w1Data
      ∧ ∃ e ∈ w1Data, ∃ dd, e.2 = some dd ∧ ∃ col ∈ dd.columns, ∃ p ∈ col.pieces,
          p.mark = "FREE"
            ∧ mainConfig.whitelistFacilities.contains col.facilityName = true
            ∧ mainConfig.whitelistedStartTimes.contains (startHHMM p.ini) = true
            ∧ mkFreeSlot "Pista 1" w1Piece = mkFreeSlot col.facilityName p)
    ∧ (w1Piece ∈ w1Col.pieces ∧ w1Piece.mark = "FREE"
        ∧ mkFreeSlot w1Col.facilityName w1Piece ∈ columnSlots mainConfig true w1Col) :=
  ⟨⟨by decide,
    c1_filter_output_only_free_listed.1 mainConfig w1Data
      (mkFreeSlot "Pista 1" w1Piece) (by decide)⟩,
   ⟨by decide, rfl,
    c1_filter_output_only_free_listed.2 mainConfig w1Col w1Piece (by decide) rfl⟩⟩

/-- C2 counterexample: a FREE piece whose start instant falls on 2025-01-03
while the day payload's own date field says 2025-01-02 is grouped under
`"2025-01-02"` (the payload's `one.date`), not under its FreeSlot date
`"2025-01-03"`, refuting the claim that aggregation groups each FreeSlot
under FreeSlot.date. -/
theorem c2_counterexample_midnight_grouping :
    availableSlots x2Cfg false x2Data = [("2025-01-02", [mkFreeSlot "F" x2Piece])]
    ∧ (mkFreeSlot "F" x2Piece).date = "2025-01-03"
    ∧ ("2025-01-02" : String) ≠ "2025-01-03" :=
  ⟨by decide, by decide, by decide⟩

/-- C2 amended: every surviving piece's FreeSlot date is derived from the
piece's start instant, but the aggregation groups the slots of a day payload
under the payload's own date field (`dayData.one.date`), not under
FreeSlot.date, so a piece crossing midnight stays grouped under the
payload's date. -/
theorem c2_amended_grouped_under_payload_date :
    (∀ (cfg : Config) (dr : Bool) (col : Column) (s : FreeSlot),
        s ∈ columnSlots cfg dr col →
        ∃ p ∈ col.pieces, s = mkFreeSlot col.facilityName p
          ∧ s.date = isoDateOfDay (p.ini / 1440))
    ∧ (∀ (cfg : Config) (dr : Bool) (data : List (String × Option DayData))
          (k : String) (sl : List FreeSlot),
        (k, sl) ∈ availableSlots cfg dr data →
        ∃ e ∈ data, ∃ dd, e.2 = some dd ∧ k = dd.date ∧ sl = daySlots cfg dr dd) := by
  constructor
  · intro cfg dr col s hs
    obtain ⟨p, hp, hmk, _⟩ := mem_columnSlots hs
    exact ⟨p, hp, hmk, by rw [hmk]; rfl⟩
  · intro cfg dr data k sl h
    exact mem_availableSlots h

/-- C2 witness: the amended grouping facts evaluated on the concrete
midnight-crossing input. -/
theorem c2_witness :
    (mkFreeSlot "F" x2Piece ∈ columnSlots x2Cfg false { facilityName := "F", pieces := [x2Piece] }
      ∧ ∃ p ∈ [x2Piece],
          mkFreeSlot "F" x2Piece = mkFreeSlot "F" p
            ∧ (mkFreeSlot "F" x2Piece).date = isoDateOfDay (p.ini / 1440))
    ∧ (("2025-01-02", [mkFreeSlot "F" x2Piece]) ∈ availableSlots x2Cfg false x2Data
        ∧ ∃ e ∈ x2Data, ∃ dd, e.2 = some dd ∧ "2025-01-02" = dd.date
            ∧ [mkFreeSlot "F" x2Piece] = daySlots x2Cfg false dd) :=
  ⟨⟨by decide, by
      have h := c2_amended_grouped_under_payload_date.1 x2Cfg false
        { facilityName := "F", pieces := [x2Piece] } (mkFreeSlot "F" x2Piece) (by decide)
      simpa using h⟩,
   ⟨by decide,
    c2_amended_grouped_under_payload_date.2 x2Cfg false x2Data
      "2025-01-02" [mkFreeSlot "F" x2Piece] (by decide)⟩⟩

/-- C3 counterexample: with rows for wall-clock starts 11:00 and 13:00, the
rendered row order is the lexicographic order of the 12-hour display
strings, so the 13:00 row (`01:00 PM`) precedes the 11:00 row (`11:00 AM`),
refuting ascending wall-clock order. -/
theorem c3_counterexample_pm_sorts_before_am :
    sortedTimes (daySlots x3Cfg false x3Day) = ["01:00 PM", "11:00 AM"]
    ∧ (mkFreeSlot "F" x3Late).start = "01:00 PM"
    ∧ (mkFreeSlot "F" x3Early).start = "11:00 AM"
    ∧ hoursOf x3Late.ini = 13
    ∧ hoursOf x3Early.ini = 11
    ∧ tableHtml x3Cfg (daySlots x3Cfg false x3Day)
        = tableOpen ++ "<tr><th>F</th></tr><tr><td>01:00 PM</td></tr><tr><td>11:00 AM</td></tr></table><br>" :=
  ⟨by decide, by decide, by decide, by decide, by decide, by decide⟩

/-- C3 amended: within a date section the table has one row per distinct
start display string, and rows appear in ascending lexicographic order of
the 12-hour display strings (which is not always ascending wall-clock
order). -/
theorem c3_amended_rows_lexicographic :
    ∀ (cfg : Config) (slots : List FreeSlot),
      (sortedTimes slots).Pairwise (fun a b => jsLeB a b = true)
      ∧ (sortedTimes slots).Nodup
      ∧ (∀ t, t ∈ sortedTimes slots ↔ t ∈ slots.map (fun s => s.start))
      ∧ tableHtml cfg slots
          = tableOpen ++ headerHtml cfg
              ++ String.join ((sortedTimes slots).map (fun t => rowHtml cfg t (facsAt slots t)))
              ++ "</table><br>" := by
  intro cfg slots
  refine ⟨sorted_sortStrings _, nodup_sortStrings (nodup_firstDedup _), ?_, rfl⟩
  intro t
  unfold sortedTimes
  rw [mem_sortStrings, mem_firstDedup]

set_option maxRecDepth 8192 in
/-- C4: the rendered cell for a (date, start, facility) triple is occupied
exactly once even when the facility appears several times in the cell's
list: rendering tests membership only, so a row equals the row rendered from
the deduplicated list, and a concrete duplicated piece yields the same HTML
as the piece held once. -/
theorem c4_duplicates_collapse_in_rendering :
    (∀ (cfg : Config) (time : String) (facs : List String),
        rowHtml cfg time facs = rowHtml cfg time facs.dedup)
    ∧ (∀ (time f : String) (facs : List String),
        cellHtml time facs f = cellHtml time facs.dedup f)
    ∧ (parseApiResponse c4Cfg false c4DataDup).1 = (parseApiResponse c4Cfg false c4DataOne).1 := by
  have hcell : ∀ (time f : String) (facs : List String),
      cellHtml time facs f = cellHtml time facs.dedup f := by
    intro time f facs
    unfold cellHtml
    rw [contains_dedup]
  refine ⟨?_, hcell, by decide⟩
  intro cfg time facs
  unfold rowHtml
  have : (cellHtml time facs) = (cellHtml time facs.dedup) := funext fun f => hcell time f facs
  rw [this]

/-- C5: when every per-date fetch fails, the pipeline still runs end to end:
the parsed report is exactly the no-slots notice, the email body contains
it, and the dispatcher performs exactly one action (one send attempt, or one
preview write in dry-run). -/
theorem c5_all_fetches_fail_still_dispatches :
    ∀ (cfg : Config) (dryRun : Bool) (envUser : String)
      (outcomes : List (String × FetchResult)) (tournamentHtml : String),
      (∀ e ∈ outcomes, e.2 = FetchResult.failure) →
      (runScrape cfg dryRun envUser outcomes tournamentHtml).html = noSlotsNotice
      ∧ (runScrape cfg dryRun envUser outcomes tournamentHtml).dispatches.length = 1
      ∧ strHasSub (runScrape cfg dryRun envUser outcomes tournamentHtml).message.htmlBody
          noSlotsNotice = true := by
  intro cfg dr envUser outcomes tour h
  have hres : resultsOf outcomes = [] := resultsOf_all_failure h
  have hhtml : (runScrape cfg dr envUser outcomes tour).html = noSlotsNotice := by
    unfold runScrape
    rw [hres]
    rfl
  refine ⟨hhtml, ?_, ?_⟩
  · cases dr <;> rfl
  · have hbody : (runScrape cfg dr envUser outcomes tour).message.htmlBody
        = emailBody noSlotsNotice tour := by
      unfold runScrape buildMail
      rw [hres]
      rfl
    rw [hbody]
    exact strHasSub_emailBody noSlotsNotice tour

/-- C5 witness: with both concrete fetches failed, the run still renders the
notice and dispatches exactly once. -/
theorem c5_witness :
    (∀ e ∈ w5Outcomes, e.2 = FetchResult.failure)
    ∧ (runScrape mainConfig false "user" w5Outcomes "<p>t</p>").html = noSlotsNotice
    ∧ (runScrape mainConfig false "user" w5Outcomes "<p>t</p>").dispatches.length = 1
    ∧ strHasSub (runScrape mainConfig false "user" w5Outcomes "<p>t</p>").message.htmlBody
        noSlotsNotice = true := by
  have h := c5_all_fetches_fail_still_dispatches mainConfig false "user" w5Outcomes
    "<p>t</p>" (by decide)
  exact ⟨by decide, h.1, h.2.1, h.2.2⟩

/-- C6 counterexample: in the variant of src/unnamed/part_000, the
deny-named list (`blacklistFacilities`) admits exactly its members: the
listed facility `Pista 1` passes the filter and the unlisted `Pista Zeta`
is skipped - under a deny polarity only unlisted names would pass, so no
deny polarity is implemented. -/
theorem c6_counterexample_deny_named_list_admits_listed :
    (variantConfig.blacklistFacilities.contains x6ColIn.facilityName = true
      ∧ columnSlotsB variantConfig x6ColIn ≠ [])
    ∧ (variantConfig.blacklistFacilities.contains x6ColOut.facilityName = false
      ∧ columnSlotsB variantConfig x6ColOut = []) :=
  ⟨⟨by decide, by decide⟩, ⟨by decide, by decide⟩⟩

/-- C6 amended: both variants implement allow semantics only - a facility
column contributes output only when its name is in the configured list, in
the main file and in the variant whose list is named `blacklistFacilities`;
no polarity configuration exists. -/
theorem c6_amended_both_lists_are_allow_lists :
    (∀ (cfgB : ConfigB) (col : Column),
        columnSlotsB cfgB col ≠ [] →
        cfgB.blacklistFacilities.contains col.facilityName = true)
    ∧ (∀ (cfg : Config) (col : Column),
        columnSlots cfg false col ≠ [] →
        cfg.whitelistFacilities.contains col.facilityName = true)
    ∧ (∀ (cfgB : ConfigB) (col : Column),
        cfgB.blacklistFacilities.contains col.facilityName = false →
        columnSlotsB cfgB col = []) := by
  refine ⟨?_, ?_, ?_⟩
  · intro cfgB col h
    cases hc : cfgB.blacklistFacilities.contains col.facilityName with
    | false => exact absurd (by unfold columnSlotsB; rw [hc]; rfl) h
    | true => rfl
  · intro cfg col h
    cases hc : cfg.whitelistFacilities.contains col.facilityName with
    | false => exact absurd (by unfold columnSlots; rw [hc]; rfl) h
    | true => rfl
  · intro cfgB col h
    unfold columnSlotsB
    rw [h]
    rfl

/-- C6 witness: the amended allow-semantics facts at the concrete listed
column. -/
theorem c6_witness :
    (columnSlotsB variantConfig x6ColIn ≠ []
      ∧ variantConfig.blacklistFacilities.contains x6ColIn.facilityName = true)
    ∧ (columnSlots mainConfig false x6ColIn ≠ []
      ∧ mainConfig.whitelistFacilities.contains x6ColIn.facilityName = true)
    ∧ (variantConfig.blacklistFacilities.contains x6ColOut.facilityName = false
      ∧ columnSlotsB variantConfig x6ColOut = []) :=
  ⟨⟨by decide, c6_amended_both_lists_are_allow_lists.1 variantConfig x6ColIn (by decide)⟩,
   ⟨by decide, c6_amended_both_lists_are_allow_lists.2.1 mainConfig x6ColIn (by decide)⟩,
   ⟨by decide, c6_amended_both_lists_are_allow_lists.2.2 variantConfig x6ColOut (by decide)⟩⟩

/-- C7: whenever the slot matrix has zero entries, the rendered report is
exactly the no-slots notice literal and contains no table element. -/
theorem c7_empty_matrix_notice_no_table :
    ∀ (cfg : Config) (dryRun : Bool) (data : List (String × Option DayData)),
      availableSlots cfg dryRun data = [] →
      (parseApiResponse cfg dryRun data).1 = noSlotsNotice
      ∧ strHasSub (parseApiResponse cfg dryRun data).1 "<table" = false := by
  intro cfg dr data h
  have h1 : (parseApiResponse cfg dr data).1 = noSlotsNotice := by
    unfold parseApiResponse htmlContent
    rw [h]
    rfl
  exact ⟨h1, by rw [h1]; decide⟩

/-- C7 witness: a run whose only date failed has an empty matrix, renders
the notice and no table. -/
theorem c7_witness :
    availableSlots mainConfig false w7Data = []
    ∧ (parseApiResponse mainConfig false w7Data).1 = noSlotsNotice
    ∧ strHasSub (parseApiResponse mainConfig false w7Data).1 "<table" = false := by
  have h := c7_empty_matrix_notice_no_table mainConfig false w7Data (by decide)
  exact ⟨by decide, h.1, h.2⟩

/-- C8: the query window holds at most `horizon` dates, each of the form
`today + i` with `i < horizon`, in strictly increasing order without
duplicates, and with the weekend-skip flag set it contains no Saturday or
Sunday - skipped dates are omitted, not replaced. -/
theorem c8_query_window_shape :
    ∀ (today horizon : Nat) (skipWeekends : Bool),
      (queryWindow today horizon skipWeekends).length ≤ horizon
      ∧ (queryWindow today horizon skipWeekends).Pairwise (· < ·)
      ∧ (queryWindow today horizon skipWeekends).Nodup
      ∧ (∀ d ∈ queryWindow today horizon skipWeekends, ∃ i, i < horizon ∧ d = today + i)
      ∧ (skipWeekends = true →
            ∀ d ∈ queryWindow today horizon skipWeekends, isWeekend d = false) := by
  intro t H sk
  rw [queryWindow_eq_filter]
  have hpw : (((List.range H).map (fun i => t + i)).filter
      (fun d => !(sk && isWeekend d))).Pairwise (· < ·) := by
    apply List.Pairwise.filter
    exact (List.pairwise_lt_range H).map _ (fun _ _ h => Nat.add_lt_add_left h t)
  refine ⟨?_, hpw, hpw.imp Nat.ne_of_lt, ?_, ?_⟩
  · calc (((List.range H).map (fun i => t + i)).filter _).length
        ≤ ((List.range H).map (fun i => t + i)).length := List.length_filter_le _ _
      _ = H := by rw [List.length_map, List.length_range]
  · intro d hd
    obtain ⟨hmem, _⟩ := List.mem_filter.mp hd
    obtain ⟨i, hi, rfl⟩ := List.mem_map.mp hmem
    exact ⟨i, List.mem_range.mp hi, rfl⟩
  · intro hsk d hd
    obtain ⟨_, hcond⟩ := List.mem_filter.mp hd
    rw [hsk] at hcond
    simpa using hcond

/-- C8 witness: the window properties applied at the concrete date
2025-01-01 (epoch day 20089) with the repository's horizon 8 and the skip
on. -/
theorem c8_witness :
    (queryWindow 20089 8 true).length ≤ 8
    ∧ (∀ d ∈ queryWindow 20089 8 true, isWeekend d = false) :=
  ⟨(c8_query_window_shape 20089 8 true).1,
   (c8_query_window_shape 20089 8 true).2.2.2.2 rfl⟩

/-- C9: the count embedded in the email subject is the number of surviving
pieces counted with multiplicity (the length of the surviving-piece list),
and on a concrete input with a duplicated piece that count (2) exceeds the
number of occupied cells in the rendered tables (1). -/
theorem c9_subject_counts_with_multiplicity :
    (∀ (cfg : Config) (dryRun : Bool) (envUser : String)
        (outcomes : List (String × FetchResult)) (tournamentHtml : String),
        (runScrape cfg dryRun envUser outcomes tournamentHtml).message.subject
          = toString (freeSlotsOfData cfg dryRun (resultsOf outcomes)).length
              ++ " free slots available")
    ∧ (freeSlotsOfData c9Cfg false c9Data).length = 2
    ∧ matrixOccupied c9Cfg (availableSlots c9Cfg false c9Data) = 1
    ∧ matrixOccupied c9Cfg (availableSlots c9Cfg false c9Data)
        < (freeSlotsOfData c9Cfg false c9Data).length :=
  ⟨fun _ _ _ _ _ => rfl, by decide, by decide, by decide⟩

/-- C10: the dry-run bypass does not extend to the status-mark test: with
dry-run set, the column filter keeps exactly the pieces whose mark is
`FREE`, so a piece with any other mark is excluded even in dry-run mode. -/
theorem c10_dry_run_keeps_mark_test :
    ∀ (cfg : Config) (col : Column),
      columnSlots cfg true col
        = (col.pieces.filter (fun p => p.mark == "FREE")).map (mkFreeSlot col.facilityName) := by
  intro cfg col
  unfold columnSlots
  rw [if_neg (by simp)]
  calc col.pieces.filterMap (pieceSlot cfg true col.facilityName)
      = col.pieces.filterMap (fun p =>
          if p.mark == "FREE" then some (mkFreeSlot col.facilityName p) else none) := by
        rw [funext (pieceSlot_dryRun_true cfg col.facilityName)]
    _ = (col.pieces.filter (fun p => p.mark == "FREE")).map (mkFreeSlot col.facilityName) :=
        filterMap_guard _ _ _

end Scrapemachine
